import Mathlib

/-!
Verification model of the chatfamily backend.

The store module (`unnamed/part_001`, required as `./store` by `src/index.js`)
is embedded as pure functions over a `Data` record; file I/O (`readData` /
`writeData`) becomes explicit state passing, and `crypto.randomUUID()` /
`new Date().toISOString()` become explicit `genId` / `ts` parameters.
The realtime layer of `src/index.js` (socket handlers for messages, calls and
WebRTC relays) is embedded as functions from the current state to an
acknowledgment, a list of emissions, and the next state.

JavaScript strings are modeled as Lean `String`; the JS primitives used by the
source (`trim`, `toLowerCase`, `startsWith`, `slice`, `localeCompare` ordering)
are given executable models over the underlying character lists.
`localeCompare` is modeled as code-point lexicographic comparison, which agrees
with the default collation on the UUID/ASCII identifiers the store sorts.
-/

namespace ChatApp

/-- Model of JS `String.prototype.trim`: drop leading and trailing whitespace. -/
def trimList (l : List Char) : List Char :=
  ((l.dropWhile Char.isWhitespace).reverse.dropWhile Char.isWhitespace).reverse

/-- JS `s.trim()`. -/
def jsTrim (s : String) : String := ⟨trimList s.data⟩

/-- ASCII lowercasing of one character (the identifiers and kinds the source
lowercases are ASCII). -/
def lowerChar (c : Char) : Char :=
  if 65 ≤ c.toNat ∧ c.toNat ≤ 90 then Char.ofNat (c.toNat + 32) else c

/-- JS `s.toLowerCase()`. -/
def jsToLower (s : String) : String := ⟨s.data.map lowerChar⟩

/-- JS `String(x || "").trim().toLowerCase()` on an already-string input. -/
def trimLower (s : String) : String := jsToLower (jsTrim s)

/-- Strict code-point comparison on characters. -/
def charLt (a b : Char) : Bool := a.toNat < b.toNat

/-- Lexicographic comparison on character lists. -/
def charListLe : List Char → List Char → Bool
  | [], _ => true
  | _ :: _, [] => false
  | a :: as, b :: bs =>
    if charLt a b then true else if charLt b a then false else charListLe as bs

/-- Model of the ordering induced by JS `a.localeCompare(b) <= 0`. -/
def jsStrLe (a b : String) : Bool := charListLe a.data b.data

/-- JS `s.startsWith(p)`. -/
def jsStartsWith (s p : String) : Bool := p.data.isPrefixOf s.data

/-- JS `s.slice(0, n)` for a nonnegative `n`. -/
def jsTake (s : String) (n : Nat) : String := ⟨s.data.take n⟩

/-- JS `s || null` packaged as an option: empty string is falsy. -/
def optNonEmpty (s : String) : Option String := if s = "" then none else some s

/-- Normalized media attachment as stored on a message
(store `normalizeMedia` output, `unnamed/part_001` lines 293-308).
Numeric fields are JS numbers; the claims under study never inspect them, so
they are carried as integers. `none` models JSON `null`. -/
structure Media where
  url : String
  fileName : Option String
  mimeType : Option String
  size : Option Int
  durationSec : Option Int
  width : Option Int
  height : Option Int
deriving Repr, DecidableEq

/-- Raw media value arriving from a client before normalization. String fields
model `String(x || "")` (absent field ↦ `""`); numeric fields are `some n`
exactly when `Number(x)` is finite. `none` at the outer option models a
missing or non-object `media` value. -/
structure RawMedia where
  url : String
  fileName : String
  mimeType : String
  size : Option Int
  durationSec : Option Int
  width : Option Int
  height : Option Int
deriving Repr, DecidableEq

/-- Store `normalizeMedia` (`unnamed/part_001` lines 293-308): `null` unless a
non-empty trimmed url is present; string fields trimmed with `"" ↦ null`. -/
def normalizeMedia : Option RawMedia → Option Media
  | none => none
  | some m =>
    let url := jsTrim m.url
    if url = "" then none
    else some {
      url := url
      fileName := optNonEmpty (jsTrim m.fileName)
      mimeType := optNonEmpty (jsTrim m.mimeType)
      size := m.size
      durationSec := m.durationSec
      width := m.width
      height := m.height }

/-- Message record as stored in the dataset (`unnamed/part_001`). `readBy` is
always an array in reachable data; the `Array.isArray` guards of the source
are the identity on it. -/
structure Message where
  id : String
  chatId : String
  senderId : String
  senderName : String
  kind : String
  text : String
  media : Option Media
  createdAt : String
  readBy : List String
deriving Repr, DecidableEq

/-- Chat record (`unnamed/part_001`). -/
structure Chat where
  id : String
  type : String
  participantIds : List String
  createdAt : String
  updatedAt : String
deriving Repr, DecidableEq

/-- User record. `login = ""` models a falsy (absent/empty) login, matching the
`user.login || user.name` fallbacks of the source. -/
structure User where
  id : String
  name : String
  login : String
  email : Option String
  passwordHash : Option String
  createdAt : String
deriving Repr, DecidableEq

/-- The persisted dataset (`data/chat-data.json`): three ordered collections. -/
structure Data where
  users : List User
  chats : List Chat
  messages : List Message
deriving Repr, DecidableEq

/-- The valid message kinds of the store (`unnamed/part_001` line 312). -/
def validKinds : List String := ["text", "image", "video", "audio", "file", "system"]

/-- Store `normalizeKind` (`unnamed/part_001` lines 310-314). -/
def normalizeKind (kind : String) (media : Option Media) : String :=
  let value := trimLower kind
  if validKinds.contains value then value
  else if media.isSome then "file" else "text"

/-- Re-normalization of an already-stored media value, as performed by the
store's `normalizeMessage` calling `normalizeMedia` on it. A stored `null`
numeric field re-normalizes to `0` because JS `Number(null) = 0` is finite. -/
def renormalizeMedia : Option Media → Option Media
  | none => none
  | some m =>
    let url := jsTrim m.url
    if url = "" then none
    else some {
      url := url
      fileName := optNonEmpty (jsTrim (m.fileName.getD ""))
      mimeType := optNonEmpty (jsTrim (m.mimeType.getD ""))
      size := some (m.size.getD 0)
      durationSec := some (m.durationSec.getD 0)
      width := some (m.width.getD 0)
      height := some (m.height.getD 0) }

/-- Store `normalizeMessage` (`unnamed/part_001` lines 316-329). -/
def normalizeMessage (m : Message) : Message :=
  let media := renormalizeMedia m.media
  { m with
    kind := normalizeKind m.kind media
    media := media }

/-- Store `normalizeLogin` (`unnamed/part_001` lines 166-170). -/
def normalizeLogin (value : String) : String := trimLower value

/-- Store `toPublicUser` (`unnamed/part_001` lines 156-164):
`login` falls back to `name` when falsy. -/
structure PublicUser where
  id : String
  name : String
  login : String
  email : Option String
  createdAt : String
deriving Repr, DecidableEq

/-- Store `toPublicUser`. -/
def toPublicUser (u : User) : PublicUser :=
  { id := u.id
    name := u.name
    login := if u.login = "" then u.name else u.login
    email := u.email
    createdAt := u.createdAt }

/-- Arguments of store `createUser`; `login = ""` models an absent login so
that `login || name` falls back to the name. -/
structure CreateUserArgs where
  name : String
  login : String
  email : Option String
  passwordHash : Option String
deriving Repr, DecidableEq

/-- JS `login || name` (fallback on a falsy login) fed to `normalizeLogin`,
as both `createUser` and its duplicate check use it. -/
def loginKey (login name : String) : String :=
  normalizeLogin (if login = "" then name else login)

/-- Store `createUser` (`unnamed/part_001` lines 210-234). `genId` stands for
`crypto.randomUUID()` and `ts` for `new Date().toISOString()`. -/
def createUser (genId ts : String) (data : Data) (args : CreateUserArgs) :
    Except String (PublicUser × Data) :=
  let normalizedLogin := loginKey args.login args.name
  let normalizedName := jsTrim args.name
  let normalizedEmail :=
    match args.email with
    | none => none
    | some e => optNonEmpty (jsToLower (jsTrim e))
  if (data.users.find? (fun u => loginKey u.login u.name == normalizedLogin)).isSome then
    .error ("Пользователь с таким именем уже существует")
  else
    let user : User :=
      { id := genId
        name := normalizedName
        login := normalizedLogin
        email := normalizedEmail
        passwordHash := args.passwordHash
        createdAt := ts }
    .ok (toPublicUser user, { data with users := data.users ++ [user] })

/-- Store `normalizePair` (`unnamed/part_001` lines 236-238): the two-element
`Array.prototype.sort` under the `localeCompare` comparator. -/
def normalizePair (userA userB : String) : String × String :=
  if jsStrLe userA userB then (userA, userB) else (userB, userA)

/-- The predicate of store `findDirectChat` (`unnamed/part_001` lines 243-248):
a direct chat with exactly two participants whose sorted pair equals `pair`. -/
def matchesDirectPair (pair : String × String) (chat : Chat) : Bool :=
  chat.type == "direct" &&
    (match chat.participantIds with
     | [a, b] => (normalizePair a b).1 == pair.1 && (normalizePair a b).2 == pair.2
     | _ => false)

/-- Store `findDirectChat` (`unnamed/part_001` lines 240-250). -/
def findDirectChat (data : Data) (userA userB : String) : Option Chat :=
  data.chats.find? (matchesDirectPair (normalizePair userA userB))

/-- Store `createOrGetDirectChat` (`unnamed/part_001` lines 252-275). The two
`new Date().toISOString()` calls are modeled by the single `ts` parameter. -/
def createOrGetDirectChat (genId ts : String) (data : Data) (userA userB : String) :
    Except String (Chat × Data) :=
  let firstId := (normalizePair userA userB).1
  let secondId := (normalizePair userA userB).2
  if firstId = secondId then .error ("Нельзя создать чат с самим собой")
  else
    match findDirectChat data firstId secondId with
    | some existing => .ok (existing, data)
    | none =>
      let chat : Chat :=
        { id := genId
          type := "direct"
          participantIds := [firstId, secondId]
          createdAt := ts
          updatedAt := ts }
      .ok (chat, { data with chats := data.chats ++ [chat] })

/-- Store `getChatById` (`unnamed/part_001` lines 277-280). -/
def getChatById (data : Data) (chatId : String) : Option Chat :=
  data.chats.find? (fun c => c.id == chatId)

/-- Store `isUserInChat` (`unnamed/part_001` lines 289-291). -/
def isUserInChat (chat : Chat) (userId : String) : Bool :=
  chat.participantIds.contains userId

/-- Store `MAX_MESSAGES` (`unnamed/part_001` line 108). -/
def MAX_MESSAGES : Nat := 3000

/-- Arguments of store `addMessage`; the JS default `kind = "text"` is the
caller's responsibility, `media = null` is `none`. -/
structure AddMessageArgs where
  chatId : String
  senderId : String
  senderName : String
  text : String
  kind : String
  media : Option RawMedia
deriving Repr, DecidableEq

/-- The message record built at the top of store `addMessage`
(`unnamed/part_001` lines 332-343). -/
def buildMessage (genId ts : String) (args : AddMessageArgs) : Message :=
  let normalizedMedia := normalizeMedia args.media
  { id := genId
    chatId := args.chatId
    senderId := args.senderId
    senderName := args.senderName
    kind := normalizeKind args.kind normalizedMedia
    text := args.text
    media := normalizedMedia
    createdAt := ts
    readBy := [args.senderId] }

/-- In-place `chat.updatedAt = message.createdAt` on the first chat found by
id, as `data.chats.find` + mutation does (`unnamed/part_001` lines 346-352). -/
def updateFirstChat : List Chat → String → String → List Chat
  | [], _, _ => []
  | c :: rest, cid, ts =>
    if c.id == cid then { c with updatedAt := ts } :: rest
    else c :: updateFirstChat rest cid ts

/-- The global retention step of `addMessage` (`unnamed/part_001` lines
354-356): `slice(-MAX_MESSAGES)` keeps the newest `MAX_MESSAGES` entries when
the cap is exceeded. -/
def trimMessages (l : List Message) : List Message :=
  if l.length > MAX_MESSAGES then l.drop (l.length - MAX_MESSAGES) else l

/-- Store `addMessage` (`unnamed/part_001` lines 331-360): build the message,
fail when the chat is missing (the JS `throw` happens before any mutation),
append, bump the chat's `updatedAt`, trim to the newest `MAX_MESSAGES`,
return the normalized message. -/
def addMessage (genId ts : String) (data : Data) (args : AddMessageArgs) :
    Except String (Message × Data) :=
  let message := buildMessage genId ts args
  match data.chats.find? (fun c => c.id == args.chatId) with
  | none => .error ("Чат не найден")
  | some _ =>
    let chats := updateFirstChat data.chats args.chatId ts
    let messages := trimMessages (data.messages ++ [message])
    .ok (normalizeMessage message, { data with chats := chats, messages := messages })

/-- The dataset as observed after a call to `addMessage`: on the JS `throw`
the data file has not been rewritten, so callers observe the original data. -/
def applyAddMessage (genId ts : String) (data : Data) (args : AddMessageArgs) : Data :=
  match addMessage genId ts data args with
  | .ok (_, d') => d'
  | .error _ => data

/-- Store `listMessagesForChat` (`unnamed/part_001` lines 362-368):
`slice(-Math.max(1, limit))` keeps the newest `max 1 limit` entries. -/
def listMessagesForChat (data : Data) (chatId : String) (limit : Nat) : List Message :=
  let filtered := data.messages.filter (fun m => m.chatId == chatId)
  (filtered.drop (filtered.length - max 1 limit)).map normalizeMessage

/-- One message's update inside store `markChatAsRead` (`unnamed/part_001`
lines 374-384): push `userId` onto `readBy` of messages of the chat that do
not contain it yet. -/
def markReadMessage (chatId userId : String) (m : Message) : Message :=
  if m.chatId == chatId && !(m.readBy.contains userId) then
    { m with readBy := m.readBy ++ [userId] }
  else m

/-- Store `markChatAsRead` (`unnamed/part_001` lines 370-389). -/
def markChatAsRead (data : Data) (chatId userId : String) : Data :=
  { data with messages := data.messages.map (markReadMessage chatId userId) }

/-- Store `computeUnreadForChat` (`unnamed/part_001` lines 391-398). -/
def computeUnreadForChat (data : Data) (chatId userId : String) : Nat :=
  (data.messages.filter (fun m =>
    m.chatId == chatId && m.senderId != userId && !(m.readBy.contains userId))).length

/-- Store `buildLastMessagePreview` (`unnamed/part_001` lines 400-412). -/
def buildLastMessagePreview (message : Message) : String :=
  let normalized := normalizeMessage message
  if normalized.kind == "text" then
    (if normalized.text = "" then "Сообщение" else normalized.text)
  else if normalized.kind == "image" then "Фото"
  else if normalized.kind == "video" then "Видео"
  else if normalized.kind == "audio" then "Голосовое сообщение"
  else if normalized.kind == "file" then
    (match normalized.media with
     | some media =>
       match media.fileName with
       | some f => "Файл: " ++ f
       | none => "Файл"
     | none => "Файл")
  else "Служебное сообщение"

/-- The `lastMessage` projection of a chat summary
(`unnamed/part_001` lines 433-444). -/
structure LastMessage where
  id : String
  senderId : String
  senderName : String
  kind : String
  text : String
  media : Option Media
  preview : String
  createdAt : String
deriving Repr, DecidableEq

/-- One element of the store `listChatsForUser` result
(`unnamed/part_001` lines 427-446). -/
structure ChatSummary where
  id : String
  type : String
  participantIds : List String
  contact : Option PublicUser
  updatedAt : String
  lastMessage : Option LastMessage
  unreadCount : Nat
deriving Repr, DecidableEq

/-- JS `a || b` on strings: `b` when `a` is empty (falsy). -/
def firstNonEmpty (a b : String) : String := if a = "" then b else a

/-- The summary built for one chat inside store `listChatsForUser`
(`unnamed/part_001` lines 419-447). `lastMessage?.createdAt || chat.updatedAt
|| chat.createdAt` is the falsy chain on the summary timestamp. -/
def summarizeChat (data : Data) (userId : String) (chat : Chat) : ChatSummary :=
  let otherUserId := chat.participantIds.find? (fun id => id != userId)
  let otherUser := otherUserId.bind (fun oid => data.users.find? (fun u => u.id == oid))
  let messages := data.messages.filter (fun m => m.chatId == chat.id)
  let lastMessage := messages.getLast?.map normalizeMessage
  { id := chat.id
    type := chat.type
    participantIds := chat.participantIds
    contact := otherUser.map toPublicUser
    updatedAt :=
      firstNonEmpty
        (match lastMessage with
         | some lm => lm.createdAt
         | none => "")
        (firstNonEmpty chat.updatedAt chat.createdAt)
    lastMessage :=
      lastMessage.map (fun lm =>
        { id := lm.id
          senderId := lm.senderId
          senderName := lm.senderName
          kind := lm.kind
          text := lm.text
          media := lm.media
          preview := buildLastMessagePreview lm
          createdAt := lm.createdAt })
    unreadCount := computeUnreadForChat data chat.id userId }

/-- Stable insertion of a later summary into an already sorted list, under the
descending `updatedAt` comparator `(a, b) => b.updatedAt.localeCompare(a.updatedAt)`:
the new element goes after every earlier element whose key is ≥ its own. -/
def sortInsert (x : ChatSummary) : List ChatSummary → List ChatSummary
  | [] => [x]
  | y :: ys => if jsStrLe x.updatedAt y.updatedAt then y :: sortInsert x ys else x :: y :: ys

/-- Model of the ES2019-stable `Array.prototype.sort` used by
`listChatsForUser`, as a left-fold of stable insertions. -/
def sortSummaries (l : List ChatSummary) : List ChatSummary :=
  l.foldl (fun acc x => sortInsert x acc) []

/-- Store `listChatsForUser` (`unnamed/part_001` lines 414-451). -/
def listChatsForUser (data : Data) (userId : String) : List ChatSummary :=
  sortSummaries
    ((data.chats.filter (fun c => isUserInChat c userId)).map (summarizeChat data userId))

/-- Store `getChatParticipants` (`unnamed/part_001` lines 453-458). -/
def getChatParticipants (data : Data) (chatId : String) : List PublicUser :=
  match data.chats.find? (fun c => c.id == chatId) with
  | none => []
  | some chat =>
    (data.users.filter (fun u => chat.participantIds.contains u.id)).map toPublicUser

/-- `sanitizeText` (`src/index.js` lines 81-84): trim then cap at 2000. -/
def sanitizeText (value : String) : String := jsTake (jsTrim value) 2000

/-- `inferKindFromMime` (`src/index.js` lines 86-92). -/
def inferKindFromMime (mimeType : String) : String :=
  let mime := jsToLower mimeType
  if jsStartsWith mime ("image/") then "image"
  else if jsStartsWith mime ("video/") then "video"
  else if jsStartsWith mime ("audio/") then "audio"
  else "file"

/-- The kinds `normalizeMessageKind` accepts verbatim
(`src/index.js` line 96) — note `system` is absent here. -/
def realtimeValidKinds : List String := ["text", "image", "video", "audio", "file"]

/-- `normalizeMessageKind` (`src/index.js` lines 94-98): a missing mime is the
empty string (`payload?.media?.mimeType` on an absent media is undefined). -/
def normalizeMessageKind (kind fallbackMime : String) : String :=
  let value := trimLower kind
  if realtimeValidKinds.contains value then value
  else inferKindFromMime fallbackMime

/-- Acknowledgment delivered through the socket `ack` callback. -/
inductive Ack where
  | ok
  | okWithMessageId (messageId : String)
  | err (message : String)
deriving Repr, DecidableEq

/-- `ensureChatAccess` (`src/index.js` lines 180-189). -/
def ensureChatAccess (data : Data) (chatId userId : String) :
    Except (Nat × String) Chat :=
  match getChatById data chatId with
  | none => .error (404, "Чат не найден")
  | some chat =>
    if !(isUserInChat chat userId) then .error (403, "Нет доступа к этому чату")
    else .ok chat

/-- The authenticated identity a socket carries (`socket.data.user`). -/
structure SocketUser where
  id : String
  name : String
deriving Repr, DecidableEq

/-- Raw `send_message` payload; `media = none` models an absent or non-object
`payload.media`. -/
structure SendMessagePayload where
  chatId : String
  kind : String
  text : String
  media : Option RawMedia
deriving Repr, DecidableEq

/-- `payload?.media?.mimeType` with undefined coerced to `""`. -/
def payloadMime : Option RawMedia → String
  | none => ""
  | some m => m.mimeType

/-- The `send_message` socket handler (`src/index.js` lines 501-536), message
fan-out omitted: the acknowledgment and the dataset after the call. -/
def sendMessageHandler (genId ts : String) (data : Data) (user : SocketUser)
    (payload : SendMessagePayload) : Ack × Data :=
  let chatId := jsTrim payload.chatId
  let kind := normalizeMessageKind payload.kind (payloadMime payload.media)
  let text := sanitizeText payload.text
  let media := payload.media
  if chatId = "" then (.err ("Не передан chatId"), data)
  else if kind == "text" && text = "" then (.err ("Пустое сообщение"), data)
  else
    match ensureChatAccess data chatId user.id with
    | .error e => (.err e.2, data)
    | .ok chat =>
      match addMessage genId ts data
          { chatId := chat.id, senderId := user.id, senderName := user.name,
            text := text, kind := kind, media := media } with
      | .error e => (.err e, data)
      | .ok (message, d') => (.okWithMessageId message.id, d')

/-- The uploaded file's metadata as multer presents it
(`req.file` in `src/index.js`). -/
structure UploadedFile where
  originalname : String
  filename : String
  mimetype : String
  size : Int
deriving Repr, DecidableEq

/-- Body fields of the upload route. -/
structure UploadBody where
  kind : String
  caption : String
  durationSec : Option Int
  width : Option Int
  height : Option Int
deriving Repr, DecidableEq

/-- The upload route `POST /api/chats/:chatId/upload`
(`src/index.js` lines 408-453), reduced to its store effect: HTTP status with
either an error or the created message, plus the dataset after the call. -/
def uploadHandler (genId ts : String) (data : Data) (user : SocketUser)
    (chatId : String) (file : Option UploadedFile) (body : UploadBody) :
    (Nat × Except String Message) × Data :=
  match ensureChatAccess data chatId user.id with
  | .error e => ((e.1, .error e.2), data)
  | .ok chat =>
    match file with
    | none => ((400, .error ("Файл не передан")), data)
    | some f =>
      let text := sanitizeText body.caption
      let kind := normalizeMessageKind body.kind f.mimetype
      let media : RawMedia :=
        { url := "/uploads/" ++ f.filename
          fileName := firstNonEmpty f.originalname f.filename
          mimeType := f.mimetype
          size := some f.size
          durationSec := body.durationSec
          width := body.width
          height := body.height }
      match addMessage genId ts data
          { chatId := chat.id, senderId := user.id, senderName := user.name,
            text := text, kind := kind, media := some media } with
      | .error e => ((400, .error e), data)
      | .ok (message, d') => ((201, .ok message), d')

/-- Ephemeral call record (`createCall`, `src/index.js` lines 197-219). -/
structure Call where
  id : String
  chatId : String
  kind : String
  callerId : String
  callerName : String
  participantIds : List String
  roomUrl : String
  status : String
  createdAt : String
deriving Repr, DecidableEq

/-- Payload of an event emitted to a room; only the events the studied
handlers emit are modeled. `roomUrl`/`kind` are present on an accepting
`call_answered` and absent on a decline. -/
inductive EventPayload where
  | callAnswered (callId chatId : String) (accepted : Bool)
      (answeredByUserId answeredByName : String) (roomUrl kind : Option String)
  | callEnded (callId chatId reason : String) (endedByUserId : Option String)
  | relay (callId fromUserId body : String)
deriving Repr, DecidableEq

/-- One `io.to(room).emit(event, payload)` call. -/
structure Emission where
  room : String
  event : String
  payload : EventPayload
deriving Repr, DecidableEq

/-- `getCallById` (`src/index.js` lines 221-223): the `activeCalls` map is an
id-keyed registry, modeled as a list looked up by first id match. -/
def getCallById (calls : List Call) (callId : String) : Option Call :=
  calls.find? (fun c => c.id == callId)

/-- `activeCalls.delete(callId)` on the id-keyed registry. -/
def deleteCall (calls : List Call) (callId : String) : List Call :=
  calls.filter (fun c => c.id != callId)

/-- The `call_answer` socket handler (`src/index.js` lines 589-628). Returns
the acknowledgment, the emissions, and the registry afterwards. The accept
branch's `call.status = "active"` in-place mutation updates the registry
entry with that id. -/
def callAnswer (calls : List Call) (user : SocketUser) (payloadCallId : String)
    (accepted : Bool) : Ack × List Emission × List Call :=
  let callId := jsTrim payloadCallId
  match getCallById calls callId with
  | none => (.err ("Звонок не найден"), [], calls)
  | some call =>
    if !(call.participantIds.contains user.id) then
      (.err ("Нет доступа к звонку"), [], calls)
    else if !accepted then
      (.ok,
       call.participantIds.map (fun uid =>
         { room := "user:" ++ uid
           event := "call_answered"
           payload := .callAnswered call.id call.chatId false user.id user.name none none }),
       deleteCall calls call.id)
    else
      (.ok,
       call.participantIds.map (fun uid =>
         { room := "user:" ++ uid
           event := "call_answered"
           payload := .callAnswered call.id call.chatId true user.id user.name
             (some call.roomUrl) (some call.kind) }),
       calls.map (fun c => if c.id == call.id then { c with status := "active" } else c))

/-- `endCall` (`src/index.js` lines 225-237): remove the call and notify every
original participant with `call_ended`. -/
def endCall (calls : List Call) (callId : String) (reason : String)
    (endedByUserId : Option String) : List Emission × List Call :=
  match getCallById calls callId with
  | none => ([], calls)
  | some call =>
    (call.participantIds.map (fun uid =>
      { room := "user:" ++ uid
        event := "call_ended"
        payload := .callEnded call.id call.chatId reason endedByUserId }),
     deleteCall calls callId)

/-- The `call_end` socket handler (`src/index.js` lines 630-644). -/
def callEndHandler (calls : List Call) (user : SocketUser) (payloadCallId : String) :
    Ack × List Emission × List Call :=
  let callId := jsTrim payloadCallId
  match getCallById calls callId with
  | none => (.err ("Звонок не найден"), [], calls)
  | some call =>
    if !(call.participantIds.contains user.id) then
      (.err ("Нет доступа к звонку"), [], calls)
    else
      let r := endCall calls callId "ended" (some user.id)
      (.ok, r.1, r.2)

/-- Payload of the three WebRTC relay commands; `body` is the opaque
`sdp`/`candidate` value. -/
structure RelayPayload where
  callId : String
  toUserId : String
  body : String
deriving Repr, DecidableEq

/-- The `webrtc_offer` / `webrtc_answer` / `webrtc_ice_candidate` socket
handlers (`src/index.js` lines 646-707), which are identical up to the event
name and opaque payload field; the registry is never modified. -/
def webrtcRelay (eventName : String) (calls : List Call) (user : SocketUser)
    (payload : RelayPayload) : Ack × List Emission :=
  let callId := jsTrim payload.callId
  let toUserId := jsTrim payload.toUserId
  match getCallById calls callId with
  | none => (.err ("Звонок не найден"), [])
  | some call =>
    if !(call.participantIds.contains user.id) || !(call.participantIds.contains toUserId) then
      (.err ("Нет доступа к звонку"), [])
    else
      (.ok,
       [{ room := "user:" ++ toUserId
          event := eventName
          payload := .relay callId user.id payload.body }])

/-- Datasets reachable from the initial empty data file through the store's
mutating operations. -/
inductive Reachable : Data → Prop where
  | init : Reachable ⟨[], [], []⟩
  | createUserStep {d d' : Data} {genId ts : String} {args : CreateUserArgs}
      {u : PublicUser} : Reachable d → createUser genId ts d args = .ok (u, d') →
      Reachable d'
  | createChatStep {d d' : Data} {genId ts userA userB : String} {c : Chat} :
      Reachable d → createOrGetDirectChat genId ts d userA userB = .ok (c, d') →
      Reachable d'
  | addMessageStep {d d' : Data} {genId ts : String} {args : AddMessageArgs}
      {m : Message} : Reachable d → addMessage genId ts d args = .ok (m, d') →
      Reachable d'
  | markReadStep {d : Data} (chatId userId : String) :
      Reachable d → Reachable (markChatAsRead d chatId userId)

/-- The canonical unordered-pair key of a two-participant direct chat. -/
def directKey (c : Chat) : Option (String × String) :=
  if c.type = "direct" then
    match c.participantIds with
    | [a, b] => some (normalizePair a b)
    | _ => none
  else none

/-- At most one direct chat exists per unordered participant pair. -/
def DirectPairUnique (d : Data) : Prop :=
  (d.chats.map directKey).Pairwise (fun k₁ k₂ => ∀ p, k₁ = some p → k₂ ≠ some p)

/-! Helper lemmas about the modeled `localeCompare` ordering. -/

theorem charToNat_inj {a b : Char} (h : a.toNat = b.toNat) : a = b := by
  cases a with
  | mk av ah =>
    cases b with
    | mk bv bh =>
      simp only [Char.toNat] at h
      congr 1
      cases av; cases bv
      simp only [UInt32.toNat, BitVec.toNat] at h
      congr 1
      exact BitVec.eq_of_toNat_eq h

theorem charListLe_total (a b : List Char) :
    charListLe a b = true ∨ charListLe b a = true := by
  induction a generalizing b with
  | nil => left; rfl
  | cons x xs ih =>
    cases b with
    | nil => right; rfl
    | cons y ys =>
      by_cases hxy : charLt x y = true
      · left; simp [charListLe, hxy]
      · by_cases hyx : charLt y x = true
        · right; simp [charListLe, hyx]
        · have hxye : x = y := charToNat_inj (by simp [charLt] at hxy hyx; omega)
          subst hxye
          rcases ih ys with h | h
          · left; simp [charListLe, hxy, h]
          · right; simp [charListLe, hxy, h]

theorem charListLe_antisymm {a b : List Char} (h1 : charListLe a b = true)
    (h2 : charListLe b a = true) : a = b := by
  induction a generalizing b with
  | nil =>
    cases b with
    | nil => rfl
    | cons y ys => simp [charListLe] at h2
  | cons x xs ih =>
    cases b with
    | nil => simp [charListLe] at h1
    | cons y ys =>
      by_cases hxy : charLt x y = true
      · have hyx : ¬ (charLt y x = true) := by simp [charLt] at hxy ⊢; omega
        simp [charListLe, hxy, hyx] at h2
      · by_cases hyx : charLt y x = true
        · simp [charListLe, hxy, hyx] at h1
        · have hxye : x = y := charToNat_inj (by simp [charLt] at hxy hyx; omega)
          subst hxye
          simp [charListLe, hxy] at h1 h2
          rw [ih h1 h2]

theorem jsStrLe_total (a b : String) : jsStrLe a b = true ∨ jsStrLe b a = true :=
  charListLe_total a.data b.data

theorem jsStrLe_antisymm {a b : String} (h1 : jsStrLe a b = true)
    (h2 : jsStrLe b a = true) : a = b :=
  String.ext (charListLe_antisymm h1 h2)

theorem normalizePair_comm (a b : String) : normalizePair a b = normalizePair b a := by
  unfold normalizePair
  by_cases hab : jsStrLe a b = true
  · by_cases hba : jsStrLe b a = true
    · have : a = b := jsStrLe_antisymm hab hba
      subst this; simp
    · simp [hab, hba]
  · have hba : jsStrLe b a = true := (jsStrLe_total a b).resolve_left hab
    simp [hab, hba]

theorem normalizePair_fst_le (a b : String) :
    jsStrLe (normalizePair a b).1 (normalizePair a b).2 = true := by
  unfold normalizePair
  by_cases hab : jsStrLe a b = true
  · simp [hab]
  · have hba : jsStrLe b a = true := (jsStrLe_total a b).resolve_left hab
    simp [hab, hba]

theorem normalizePair_of_le {a b : String} (h : jsStrLe a b = true) :
    normalizePair a b = (a, b) := by
  unfold normalizePair; simp [h]

theorem normalizePair_idem (a b : String) :
    normalizePair (normalizePair a b).1 (normalizePair a b).2 = normalizePair a b := by
  rw [normalizePair_of_le (normalizePair_fst_le a b)]

/-! Structural lemmas about the store operations. -/

theorem createUser_ok_parts {genId ts : String} {d : Data} {args : CreateUserArgs}
    {u : PublicUser} {d' : Data} (h : createUser genId ts d args = .ok (u, d')) :
    d'.chats = d.chats ∧ d'.messages = d.messages := by
  unfold createUser at h
  simp only [] at h
  split at h
  · cases h
  · simp only [Except.ok.injEq, Prod.mk.injEq] at h
    rw [← h.2]
    exact ⟨rfl, rfl⟩

theorem createOrGet_ok_parts {genId ts : String} {d : Data} {A B : String}
    {c : Chat} {d' : Data} (h : createOrGetDirectChat genId ts d A B = .ok (c, d')) :
    d'.users = d.users ∧ d'.messages = d.messages := by
  unfold createOrGetDirectChat at h
  simp only [] at h
  split at h
  · cases h
  · split at h
    · simp only [Except.ok.injEq, Prod.mk.injEq] at h
      rw [← h.2]
      exact ⟨rfl, rfl⟩
    · simp only [Except.ok.injEq, Prod.mk.injEq] at h
      rw [← h.2]
      exact ⟨rfl, rfl⟩

theorem trimMessages_eq_drop (l : List Message) :
    trimMessages l = l.drop (l.length - MAX_MESSAGES) := by
  unfold trimMessages
  split
  · rfl
  · rename_i hnot
    have hz : l.length - MAX_MESSAGES = 0 := by omega
    rw [hz, List.drop_zero]

theorem trimMessages_length (l : List Message) :
    (trimMessages l).length = min l.length MAX_MESSAGES := by
  rw [trimMessages_eq_drop, List.length_drop]
  omega

theorem addMessage_ok_parts {genId ts : String} {d : Data} {args : AddMessageArgs}
    {m : Message} {d' : Data} (h : addMessage genId ts d args = .ok (m, d')) :
    m = normalizeMessage (buildMessage genId ts args) ∧
    d'.users = d.users ∧
    d'.chats = updateFirstChat d.chats args.chatId ts ∧
    d'.messages = trimMessages (d.messages ++ [buildMessage genId ts args]) := by
  unfold addMessage at h
  simp only [] at h
  split at h
  · cases h
  · injection h with h
    injection h with h1 h2
    subst h1
    subst h2
    exact ⟨rfl, rfl, rfl, rfl⟩

theorem addMessage_error_iff {genId ts : String} {d : Data} {args : AddMessageArgs}
    {e : String} :
    addMessage genId ts d args = .error e ↔
      (d.chats.find? (fun c => c.id == args.chatId) = none ∧ e = "Чат не найден") := by
  unfold addMessage
  split
  · rename_i hnone
    simp [hnone, eq_comm]
  · rename_i c hsome
    simp [hsome]

theorem directKey_updatedAt (c : Chat) (ts : String) :
    directKey { c with updatedAt := ts } = directKey c := rfl

theorem updateFirstChat_map_directKey (l : List Chat) (cid ts : String) :
    (updateFirstChat l cid ts).map directKey = l.map directKey := by
  induction l with
  | nil => rfl
  | cons c rest ih =>
    unfold updateFirstChat
    by_cases h : (c.id == cid) = true
    · simp [h, directKey_updatedAt]
    · simp only [Bool.not_eq_true] at h
      simp [h, ih]

theorem matchesDirectPair_iff {p : String × String} {c : Chat} :
    matchesDirectPair p c = true ↔ directKey c = some p := by
  unfold matchesDirectPair directKey
  by_cases ht : c.type = "direct"
  · rw [if_pos ht]
    cases hpi : c.participantIds with
    | nil => simp [ht]
    | cons a rest =>
      cases rest with
      | nil => simp [ht]
      | cons b rest2 =>
        cases rest2 with
        | nil =>
          simp only [ht, beq_self_eq_true, Bool.true_and, Bool.and_eq_true, beq_iff_eq,
            Option.some.injEq]
          exact Prod.ext_iff.symm
        | cons c3 rest3 => simp [ht]
  · rw [if_neg ht]
    simp [ht]

theorem findDirectChat_none_iff {d : Data} {A B : String} :
    findDirectChat d A B = none ↔
      ∀ c ∈ d.chats, directKey c ≠ some (normalizePair A B) := by
  unfold findDirectChat
  rw [List.find?_eq_none]
  constructor
  · intro h c hc hk
    exact h c hc (matchesDirectPair_iff.mpr hk)
  · intro h c hc hm
    exact h c hc (matchesDirectPair_iff.mp hm)

theorem directPairUnique_init : DirectPairUnique ⟨[], [], []⟩ := by
  simp [DirectPairUnique]

theorem createOrGet_preserves_unique {genId ts : String} {d : Data} {A B : String}
    {c : Chat} {d' : Data} (h : createOrGetDirectChat genId ts d A B = .ok (c, d'))
    (hu : DirectPairUnique d) : DirectPairUnique d' := by
  unfold createOrGetDirectChat at h
  simp only [] at h
  split at h
  · cases h
  · split at h
    · injection h with h
      injection h with h1 h2
      subst h2
      exact hu
    · rename_i hfind
      injection h with h
      injection h with h1 h2
      subst h2
      unfold DirectPairUnique at hu ⊢
      simp only [List.map_append, List.map_cons, List.map_nil]
      rw [List.pairwise_append]
      refine ⟨hu, by simp, ?_⟩
      intro k hk k' hk' p hkp
      simp only [List.mem_cons, List.not_mem_nil, or_false] at hk'
      subst hk'
      intro hcontra
      have hkc : directKey (⟨genId, "direct",
          [(normalizePair A B).1, (normalizePair A B).2], ts, ts⟩ : Chat)
          = some (normalizePair A B) := by
        unfold directKey
        simp [normalizePair_idem]
      rw [hkc] at hcontra
      injection hcontra with hp
      subst hp
      obtain ⟨ch, hch, hkey⟩ := List.mem_map.mp hk
      have hne := findDirectChat_none_iff.mp hfind ch hch
      rw [normalizePair_idem] at hne
      rw [← hkey] at hkp
      exact hne hkp

theorem reachable_directPairUnique {d : Data} (h : Reachable d) : DirectPairUnique d := by
  induction h with
  | init => exact directPairUnique_init
  | createUserStep hr heq ih =>
    unfold DirectPairUnique at ih ⊢
    rw [(createUser_ok_parts heq).1]
    exact ih
  | createChatStep hr heq ih => exact createOrGet_preserves_unique heq ih
  | addMessageStep hr heq ih =>
    unfold DirectPairUnique at ih ⊢
    rw [(addMessage_ok_parts heq).2.2.1, updateFirstChat_map_directKey]
    exact ih
  | markReadStep chatId userId hr ih => exact ih

theorem reachable_messages_le {d : Data} (h : Reachable d) :
    d.messages.length ≤ MAX_MESSAGES := by
  induction h with
  | init => exact Nat.zero_le _
  | createUserStep hr heq ih =>
    rw [(createUser_ok_parts heq).2]
    exact ih
  | createChatStep hr heq ih =>
    rw [(createOrGet_ok_parts heq).2]
    exact ih
  | addMessageStep hr heq ih =>
    rw [(addMessage_ok_parts heq).2.2.2, trimMessages_length]
    omega
  | markReadStep chatId userId hr ih =>
    simpa [markChatAsRead] using ih

theorem createOrGetDirectChat_comm (genId ts : String) (d : Data) (A B : String) :
    createOrGetDirectChat genId ts d A B = createOrGetDirectChat genId ts d B A := by
  unfold createOrGetDirectChat
  rw [normalizePair_comm A B]

theorem findDirectChat_after_create (d : Data) (genId ts A B : String)
    (hfind : findDirectChat d (normalizePair A B).1 (normalizePair A B).2 = none) :
    findDirectChat
      { d with chats := d.chats ++
          [⟨genId, "direct", [(normalizePair A B).1, (normalizePair A B).2], ts, ts⟩] }
      (normalizePair A B).1 (normalizePair A B).2
    = some ⟨genId, "direct", [(normalizePair A B).1, (normalizePair A B).2], ts, ts⟩ := by
  unfold findDirectChat at hfind ⊢
  simp only [List.find?_append, hfind, Option.none_or]
  simp [matchesDirectPair]

theorem createOrGetDirectChat_twice {genId ts genId' ts' : String} {d : Data}
    {A B : String} {c : Chat} {d' : Data}
    (h : createOrGetDirectChat genId ts d A B = .ok (c, d')) :
    createOrGetDirectChat genId' ts' d' A B = .ok (c, d') := by
  unfold createOrGetDirectChat at h ⊢
  simp only [] at h
  split at h
  · cases h
  · rename_i hne
    rw [if_neg hne]
    split at h
    · rename_i existing hfind
      injection h with h
      injection h with h1 h2
      subst h2
      rw [hfind, h1]
    · rename_i hfind
      injection h with h
      injection h with h1 h2
      subst h2
      rw [findDirectChat_after_create d genId ts A B hfind, h1]

/-! Read-tracking lemmas. -/

theorem contains_eq_true_iff (l : List String) (u : String) :
    (l.contains u) = true ↔ u ∈ l :=
  List.elem_iff

theorem contains_append_self (l : List String) (u : String) :
    ((l ++ [u]).contains u) = true := by
  rw [contains_eq_true_iff]
  simp

theorem markReadMessage_chatId (c u : String) (m : Message) :
    (markReadMessage c u m).chatId = m.chatId := by
  unfold markReadMessage
  split <;> rfl

theorem markReadMessage_senderId (c u : String) (m : Message) :
    (markReadMessage c u m).senderId = m.senderId := by
  unfold markReadMessage
  split <;> rfl

theorem markReadMessage_readBy_cases (c u : String) (m : Message) :
    (markReadMessage c u m).readBy = m.readBy ∨
    (markReadMessage c u m).readBy = m.readBy ++ [u] := by
  unfold markReadMessage
  split
  · right; rfl
  · left; rfl

theorem markReadMessage_grows (c u : String) (m : Message) :
    ∀ x ∈ m.readBy, x ∈ (markReadMessage c u m).readBy := by
  intro x hx
  rcases markReadMessage_readBy_cases c u m with h | h <;> rw [h] <;> simp [hx]

theorem markReadMessage_contains_of (c u : String) (m : Message)
    (h : (m.chatId == c) = true) :
    ((markReadMessage c u m).readBy.contains u) = true := by
  unfold markReadMessage
  by_cases hc : (m.chatId == c && !(m.readBy.contains u)) = true
  · rw [if_pos hc]
    exact contains_append_self m.readBy u
  · rw [if_neg hc]
    simp only [h, Bool.true_and, Bool.not_eq_true', Bool.not_eq_true] at hc
    simp only [Bool.not_eq_false] at hc
    exact hc

theorem markReadMessage_idem (c u : String) (m : Message) :
    markReadMessage c u (markReadMessage c u m) = markReadMessage c u m := by
  by_cases h : (m.chatId == c && !(m.readBy.contains u)) = true
  · have hm : markReadMessage c u m = { m with readBy := m.readBy ++ [u] } := by
      unfold markReadMessage
      rw [if_pos h]
    rw [hm]
    unfold markReadMessage
    rw [if_neg]
    simp [contains_append_self]
  · have hm : markReadMessage c u m = m := by
      unfold markReadMessage
      rw [if_neg h]
    rw [hm, hm]

theorem markChatAsRead_messages (d : Data) (c u : String) :
    (markChatAsRead d c u).messages = d.messages.map (markReadMessage c u) := rfl

theorem markChatAsRead_idem (d : Data) (c u : String) :
    markChatAsRead (markChatAsRead d c u) c u = markChatAsRead d c u := by
  unfold markChatAsRead
  congr 1
  simp only []
  rw [List.map_map]
  exact List.map_congr_left (fun m _ => markReadMessage_idem c u m)

theorem unreadFilter_map_mark (l : List Message) (c u : String) :
    (l.map (markReadMessage c u)).filter (fun m =>
      m.chatId == c && m.senderId != u && !(m.readBy.contains u)) = [] := by
  induction l with
  | nil => rfl
  | cons m rest ih =>
    simp only [List.map_cons, List.filter_cons]
    have hpred : ((markReadMessage c u m).chatId == c &&
        (markReadMessage c u m).senderId != u &&
        !((markReadMessage c u m).readBy.contains u)) = false := by
      by_cases hc : (m.chatId == c) = true
      · have hcont := markReadMessage_contains_of c u m hc
        simp only [hcont, Bool.not_true, Bool.and_false]
      · have hch := markReadMessage_chatId c u m
        simp only [Bool.not_eq_true] at hc
        simp [hch, hc]
    rw [if_neg (by rw [hpred]; exact Bool.false_ne_true), ih]

theorem computeUnread_after_mark (d : Data) (c u : String) :
    computeUnreadForChat (markChatAsRead d c u) c u = 0 := by
  unfold computeUnreadForChat
  rw [markChatAsRead_messages, unreadFilter_map_mark]
  rfl

theorem filter_length_map_le (l : List Message) (p : Message → Bool)
    (f : Message → Message) (hpf : ∀ m, p (f m) = true → p m = true) :
    ((l.map f).filter p).length ≤ (l.filter p).length := by
  induction l with
  | nil => exact le_refl _
  | cons m rest ih =>
    simp only [List.map_cons, List.filter_cons]
    by_cases h : p (f m) = true
    · rw [if_pos h, if_pos (hpf m h)]
      simpa using ih
    · rw [if_neg h]
      by_cases h2 : p m = true
      · rw [if_pos h2]
        exact le_trans ih (by simp)
      · rw [if_neg h2]
        exact ih

theorem computeUnread_mark_le (d : Data) (cMark uMark c u : String) :
    computeUnreadForChat (markChatAsRead d cMark uMark) c u ≤
      computeUnreadForChat d c u := by
  unfold computeUnreadForChat
  rw [markChatAsRead_messages]
  apply filter_length_map_le
  intro m hp
  simp only [Bool.and_eq_true, Bool.not_eq_true', markReadMessage_chatId,
    markReadMessage_senderId] at hp ⊢
  refine ⟨hp.1, ?_⟩
  have hnot := hp.2
  rw [Bool.eq_false_iff]
  intro hcontra
  rw [Bool.eq_false_iff] at hnot
  refine hnot ?_
  rw [contains_eq_true_iff] at hcontra ⊢
  exact markReadMessage_grows cMark uMark m u hcontra

theorem mem_sortInsert (x a : ChatSummary) (l : List ChatSummary) :
    a ∈ sortInsert x l ↔ a = x ∨ a ∈ l := by
  induction l with
  | nil => simp [sortInsert]
  | cons y ys ih =>
    unfold sortInsert
    split
    · simp only [List.mem_cons, ih]
      tauto
    · simp only [List.mem_cons]

theorem mem_sortSummaries_aux (l : List ChatSummary) (acc : List ChatSummary)
    (a : ChatSummary) :
    a ∈ l.foldl (fun acc x => sortInsert x acc) acc ↔ a ∈ acc ∨ a ∈ l := by
  induction l generalizing acc with
  | nil => simp
  | cons x xs ih =>
    simp only [List.foldl_cons]
    rw [ih, mem_sortInsert]
    simp only [List.mem_cons]
    tauto

theorem mem_sortSummaries (l : List ChatSummary) (a : ChatSummary) :
    a ∈ sortSummaries l ↔ a ∈ l := by
  unfold sortSummaries
  rw [mem_sortSummaries_aux]
  simp

theorem listChats_unread_eq {d : Data} {U : String} {s : ChatSummary}
    (hs : s ∈ listChatsForUser d U) :
    s.unreadCount = (d.messages.filter (fun m =>
      m.chatId == s.id && m.senderId != U && !(m.readBy.contains U))).length := by
  unfold listChatsForUser at hs
  rw [mem_sortSummaries] at hs
  obtain ⟨chat, hchat, hsum⟩ := List.mem_map.mp hs
  subst hsum
  rfl

theorem trimMessages_append_getLast (l : List Message) (x : Message) :
    (trimMessages (l ++ [x])).getLast? = some x := by
  rw [trimMessages_eq_drop]
  have hM : MAX_MESSAGES = 3000 := rfl
  have hk : (l ++ [x]).length - MAX_MESSAGES ≤ l.length := by
    simp only [List.length_append, List.length_cons, List.length_nil]
    omega
  rw [List.drop_append_of_le_length hk, List.getLast?_concat]

theorem find?_updateFirstChat {l : List Chat} {cid ts : String} {c : Chat}
    (h : l.find? (fun c => c.id == cid) = some c) :
    (updateFirstChat l cid ts).find? (fun c => c.id == cid) =
      some { c with updatedAt := ts } := by
  induction l with
  | nil => cases h
  | cons x rest ih =>
    unfold updateFirstChat
    by_cases hx : (x.id == cid) = true
    · rw [if_pos hx]
      rw [List.find?_cons_of_pos (p := fun (c : Chat) => c.id == cid) rest hx] at h
      injection h with hxc
      subst hxc
      exact List.find?_cons_of_pos (p := fun (c : Chat) => c.id == cid) _ hx
    · rw [if_neg hx]
      rw [List.find?_cons_of_neg (p := fun (c : Chat) => c.id == cid) rest hx] at h
      rw [List.find?_cons_of_neg (p := fun (c : Chat) => c.id == cid) (updateFirstChat rest cid ts) hx]
      exact ih h

/-! Claim theorems. -/

/-- Claim C2: for all user ids A and B, `createOrGetDirectChat(A,B)` and
`createOrGetDirectChat(B,A)` return the same result (given the same id and
timestamp oracle values); a repeated call on the resulting state returns the
same chat and leaves the state unchanged, so no second direct chat for the
pair is ever created; and in every reachable store state at most one direct
chat exists per unordered participant pair. -/
theorem C2_direct_chat_canonical :
    (∀ genId ts d A B,
      createOrGetDirectChat genId ts d A B = createOrGetDirectChat genId ts d B A) ∧
    (∀ genId ts genId' ts' d A B c d',
      createOrGetDirectChat genId ts d A B = .ok (c, d') →
      createOrGetDirectChat genId' ts' d' A B = .ok (c, d')) ∧
    (∀ d, Reachable d → DirectPairUnique d) :=
  ⟨createOrGetDirectChat_comm,
   fun _ _ _ _ _ _ _ _ _ h => createOrGetDirectChat_twice h,
   fun _ h => reachable_directPairUnique h⟩

/-- Concrete instantiation of `C2_direct_chat_canonical`: re-requesting the
pair after creating its chat returns the same chat on the same state. -/
theorem C2_direct_chat_canonical_witness :
    createOrGetDirectChat "g2" "t2"
      (⟨[], [⟨"g1", "direct", ["userA", "userB"], "t1", "t1"⟩], []⟩ : Data) "userA" "userB"
      = .ok (⟨"g1", "direct", ["userA", "userB"], "t1", "t1"⟩,
             ⟨[], [⟨"g1", "direct", ["userA", "userB"], "t1", "t1"⟩], []⟩) ∧
    DirectPairUnique ⟨[], [], []⟩ :=
  ⟨C2_direct_chat_canonical.2.1 "g1" "t1" "g2" "t2" ⟨[], [], []⟩ "userA" "userB" _ _ (by rfl),
   C2_direct_chat_canonical.2.2 _ Reachable.init⟩

/-- Claim C3: after any reachable sequence of operations the store holds at
most `MAX_MESSAGES = 3000` messages; a successful `addMessage` leaves exactly
the newest `min (previous + 1) MAX_MESSAGES` messages, namely the suffix of
the appended message list, so the oldest messages are evicted first
regardless of their chat. -/
theorem C3_global_retention :
    (∀ genId ts d args m d', addMessage genId ts d args = .ok (m, d') →
      d'.messages = (d.messages ++ [buildMessage genId ts args]).drop
        (d.messages.length + 1 - MAX_MESSAGES) ∧
      d'.messages.length = min (d.messages.length + 1) MAX_MESSAGES) ∧
    (∀ d, Reachable d → d.messages.length ≤ MAX_MESSAGES) := by
  constructor
  · intro genId ts d args m d' h
    have hm := (addMessage_ok_parts h).2.2.2
    have hl : (d.messages ++ [buildMessage genId ts args]).length = d.messages.length + 1 := by
      simp
    constructor
    · rw [hm, trimMessages_eq_drop, hl]
    · rw [hm, trimMessages_length, hl]
  · intro d h
    exact reachable_messages_le h

/-- Concrete instantiation of `C3_global_retention` at a one-message store. -/
theorem C3_global_retention_witness :
    ((⟨[], [⟨"c1", "direct", ["ua", "ub"], "t0", "t2"⟩],
        [⟨"m1", "c1", "ua", "Alice", "text", "hi", none, "t2", ["ua"]⟩]⟩ : Data).messages =
      ((⟨[], [⟨"c1", "direct", ["ua", "ub"], "t0", "t0"⟩], []⟩ : Data).messages ++
        [buildMessage "m1" "t2" ⟨"c1", "ua", "Alice", "hi", "text", none⟩]).drop
        ((⟨[], [⟨"c1", "direct", ["ua", "ub"], "t0", "t0"⟩], []⟩ : Data).messages.length + 1
          - MAX_MESSAGES) ∧
     (⟨[], [⟨"c1", "direct", ["ua", "ub"], "t0", "t2"⟩],
        [⟨"m1", "c1", "ua", "Alice", "text", "hi", none, "t2", ["ua"]⟩]⟩ : Data).messages.length =
      min ((⟨[], [⟨"c1", "direct", ["ua", "ub"], "t0", "t0"⟩], []⟩ : Data).messages.length + 1)
        MAX_MESSAGES) ∧
    (⟨[], [], []⟩ : Data).messages.length ≤ MAX_MESSAGES :=
  ⟨C3_global_retention.1 "m1" "t2" ⟨[], [⟨"c1", "direct", ["ua", "ub"], "t0", "t0"⟩], []⟩
      ⟨"c1", "ua", "Alice", "hi", "text", none⟩ _ _ (by rfl),
   C3_global_retention.2 _ Reachable.init⟩

/-- Claim C4: the `unreadCount` reported by `listChatsForUser U` for a chat
equals the number of messages in that chat authored by someone other than `U`
whose `readBy` does not contain `U`; after `markChatAsRead` on the chat that
count is zero; and `markChatAsRead` (the only read operation that mutates
state — the two listing operations are pure) never increases any unread
count. -/
theorem C4_unread_count :
    (∀ d U s, s ∈ listChatsForUser d U →
      s.unreadCount = (d.messages.filter (fun m =>
        m.chatId == s.id && m.senderId != U && !(m.readBy.contains U))).length) ∧
    (∀ d c U, computeUnreadForChat (markChatAsRead d c U) c U = 0) ∧
    (∀ d cMark uMark c U,
      computeUnreadForChat (markChatAsRead d cMark uMark) c U ≤
        computeUnreadForChat d c U) :=
  ⟨fun _ _ _ hs => listChats_unread_eq hs,
   fun d c U => computeUnread_after_mark d c U,
   fun d cMark uMark c U => computeUnread_mark_le d cMark uMark c U⟩

/-- Claim C5: a message created by `addMessage` starts with `readBy` exactly
`[senderId]`, both in the returned message and in the stored record (the
newest stored message); `markChatAsRead` is idempotent; and `markChatAsRead`
only ever extends `readBy` sets, pointwise on every stored message. -/
theorem C5_readby :
    (∀ genId ts d args m d', addMessage genId ts d args = .ok (m, d') →
      m.readBy = [args.senderId] ∧
      d'.messages.getLast? = some (buildMessage genId ts args) ∧
      (buildMessage genId ts args).readBy = [args.senderId]) ∧
    (∀ d c u, markChatAsRead (markChatAsRead d c u) c u = markChatAsRead d c u) ∧
    (∀ d c u, (markChatAsRead d c u).messages = d.messages.map (markReadMessage c u)) ∧
    (∀ c u m, ∀ x ∈ m.readBy, x ∈ (markReadMessage c u m).readBy) := by
  refine ⟨?_, markChatAsRead_idem, markChatAsRead_messages, markReadMessage_grows⟩
  intro genId ts d args m d' h
  obtain ⟨hm, _, _, hmsg⟩ := addMessage_ok_parts h
  refine ⟨?_, ?_, rfl⟩
  · rw [hm]
    rfl
  · rw [hmsg]
    exact trimMessages_append_getLast _ _

/-- Claim C6: `addMessage` fails, with the chat-not-found error, exactly when
the chatId names no existing chat; on that failure the dataset observed by
callers is unchanged (the JS throw precedes any write); on success the chat
found under that id has `updatedAt` equal to the new message's `createdAt`. -/
theorem C6_addMessage_notfound :
    (∀ genId ts d args e, addMessage genId ts d args = .error e ↔
      ((∀ c ∈ d.chats, ¬(c.id = args.chatId)) ∧ e = "Чат не найден")) ∧
    (∀ genId ts d args, (∀ c ∈ d.chats, ¬(c.id = args.chatId)) →
      applyAddMessage genId ts d args = d) ∧
    (∀ genId ts d args m d', addMessage genId ts d args = .ok (m, d') →
      (getChatById d' args.chatId).map Chat.updatedAt = some m.createdAt) := by
  have hconv : ∀ (d : Data) (args : AddMessageArgs),
      (∀ c ∈ d.chats, ¬(c.id = args.chatId)) ↔
      d.chats.find? (fun c => c.id == args.chatId) = none := by
    intro d args
    rw [List.find?_eq_none]
    constructor
    · intro hall c hc
      simp only [Bool.not_eq_true]
      rw [Bool.eq_false_iff]
      intro hcontra
      exact hall c hc (by simpa using hcontra)
    · intro hall c hc hceq
      have hne := hall c hc
      refine hne ?_
      rw [hceq]
      exact beq_self_eq_true _
  refine ⟨?_, ?_, ?_⟩
  · intro genId ts d args e
    rw [addMessage_error_iff, hconv]
  · intro genId ts d args hall
    unfold applyAddMessage
    have herr : addMessage genId ts d args = .error "Чат не найден" := by
      rw [addMessage_error_iff]
      exact ⟨(hconv d args).mp hall, rfl⟩
    rw [herr]
  · intro genId ts d args m d' h
    obtain ⟨hm, _, hchats, _⟩ := addMessage_ok_parts h
    cases hfind : d.chats.find? (fun c => c.id == args.chatId) with
    | none =>
      exfalso
      have herr : addMessage genId ts d args = .error "Чат не найден" := by
        rw [addMessage_error_iff]
        exact ⟨hfind, rfl⟩
      rw [herr] at h
      cases h
    | some c0 =>
      have hget : getChatById d' args.chatId = some { c0 with updatedAt := ts } := by
        unfold getChatById
        rw [hchats]
        exact find?_updateFirstChat hfind
      rw [hget, hm]
      rfl

/-- Concrete two-user dataset with one unread message, for witnesses. -/
def dC4 : Data :=
  ⟨[⟨"ua", "Alice", "alice", none, none, "t0"⟩, ⟨"ub", "Bob", "bob", none, none, "t0"⟩],
   [⟨"c1", "direct", ["ua", "ub"], "t0", "t2"⟩],
   [⟨"m1", "c1", "ua", "Alice", "text", "hi", none, "t2", ["ua"]⟩]⟩

/-- The chat summary `listChatsForUser dC4 "ub"` produces. -/
def sC4 : ChatSummary :=
  ⟨"c1", "direct", ["ua", "ub"], some ⟨"ua", "Alice", "alice", none, "t0"⟩, "t2",
   some ⟨"m1", "ua", "Alice", "text", "hi", none, "hi", "t2"⟩, 1⟩

/-- Concrete instantiation of `C4_unread_count` on a one-unread-message chat. -/
theorem C4_unread_count_witness :
    (sC4.unreadCount = (dC4.messages.filter (fun m =>
      m.chatId == sC4.id && m.senderId != "ub" && !(m.readBy.contains "ub"))).length) ∧
    computeUnreadForChat (markChatAsRead dC4 "c1" "ub") "c1" "ub" = 0 ∧
    computeUnreadForChat (markChatAsRead dC4 "c1" "ub") "c1" "ub" ≤
      computeUnreadForChat dC4 "c1" "ub" :=
  ⟨C4_unread_count.1 dC4 "ub" sC4 (by decide),
   C4_unread_count.2.1 dC4 "c1" "ub",
   C4_unread_count.2.2 dC4 "c1" "ub" "c1" "ub"⟩

/-- Concrete one-chat dataset for the C5 witness. -/
def dC5 : Data := ⟨[], [⟨"c1", "direct", ["ua", "ub"], "t0", "t0"⟩], []⟩

/-- The `addMessage` arguments used by the C5 witness. -/
def argsC5 : AddMessageArgs := ⟨"c1", "ua", "Alice", "hi", "text", none⟩

/-- Concrete instantiation of `C5_readby`. -/
theorem C5_readby_witness :
    ((⟨"m1", "c1", "ua", "Alice", "text", "hi", none, "t2", ["ua"]⟩ : Message).readBy = ["ua"] ∧
     (⟨[], [⟨"c1", "direct", ["ua", "ub"], "t0", "t2"⟩],
       [⟨"m1", "c1", "ua", "Alice", "text", "hi", none, "t2", ["ua"]⟩]⟩ : Data).messages.getLast?
        = some (buildMessage "m1" "t2" argsC5) ∧
     (buildMessage "m1" "t2" argsC5).readBy = ["ua"]) ∧
    markChatAsRead (markChatAsRead dC5 "c1" "ub") "c1" "ub" = markChatAsRead dC5 "c1" "ub" ∧
    (markChatAsRead dC5 "c1" "ub").messages = dC5.messages.map (markReadMessage "c1" "ub") ∧
    "ua" ∈ (markReadMessage "c1" "ub"
      ⟨"m1", "c1", "ua", "Alice", "text", "hi", none, "t2", ["ua"]⟩).readBy :=
  ⟨C5_readby.1 "m1" "t2" dC5 argsC5 _ _ (by rfl),
   C5_readby.2.1 dC5 "c1" "ub",
   C5_readby.2.2.1 dC5 "c1" "ub",
   C5_readby.2.2.2 "c1" "ub" ⟨"m1", "c1", "ua", "Alice", "text", "hi", none, "t2", ["ua"]⟩
     "ua" (by decide)⟩

/-- Concrete instantiation of `C6_addMessage_notfound`: failure on the empty
store leaves it unchanged, success on a one-chat store bumps `updatedAt`. -/
theorem C6_addMessage_notfound_witness :
    (addMessage "m1" "t2" (⟨[], [], []⟩ : Data) ⟨"c1", "ua", "Alice", "hi", "text", none⟩
        = .error "Чат не найден" ↔
      ((∀ c ∈ (⟨[], [], []⟩ : Data).chats, ¬(c.id = "c1")) ∧
        ("Чат не найден" : String) = "Чат не найден")) ∧
    applyAddMessage "m1" "t2" (⟨[], [], []⟩ : Data) ⟨"c1", "ua", "Alice", "hi", "text", none⟩
      = ⟨[], [], []⟩ ∧
    (getChatById (⟨[], [⟨"c1", "direct", ["ua", "ub"], "t0", "t2"⟩],
        [⟨"m1", "c1", "ua", "Alice", "text", "hi", none, "t2", ["ua"]⟩]⟩ : Data) "c1").map
      Chat.updatedAt = some "t2" :=
  ⟨C6_addMessage_notfound.1 "m1" "t2" ⟨[], [], []⟩ ⟨"c1", "ua", "Alice", "hi", "text", none⟩
      "Чат не найден",
   C6_addMessage_notfound.2.1 "m1" "t2" ⟨[], [], []⟩ ⟨"c1", "ua", "Alice", "hi", "text", none⟩
      (by simp),
   C6_addMessage_notfound.2.2 "m1" "t2" dC5 argsC5
      ⟨"m1", "c1", "ua", "Alice", "text", "hi", none, "t2", ["ua"]⟩
      ⟨[], [⟨"c1", "direct", ["ua", "ub"], "t0", "t2"⟩],
        [⟨"m1", "c1", "ua", "Alice", "text", "hi", none, "t2", ["ua"]⟩]⟩ (by rfl)⟩

/-! Call-registry lemmas. -/

theorem find?_filter_ne (calls : List Call) (cid : String) :
    (calls.filter (fun c => c.id != cid)).find? (fun c => c.id == cid) = none := by
  rw [List.find?_eq_none]
  intro c hc
  have hne := List.of_mem_filter hc
  simp only [bne_iff_ne] at hne
  simp only [Bool.not_eq_true]
  rw [Bool.eq_false_iff]
  intro hcontra
  exact hne (by simpa using hcontra)

theorem getCallById_deleteCall (calls : List Call) (cid : String) :
    getCallById (deleteCall calls cid) cid = none := by
  unfold getCallById deleteCall
  exact find?_filter_ne calls cid

theorem find?_map_setActive (calls : List Call) (cid : String) :
    (calls.map (fun c => if c.id == cid then { c with status := "active" } else c)).find?
      (fun c => c.id == cid)
      = (calls.find? (fun c => c.id == cid)).map
          (fun c => { c with status := "active" }) := by
  induction calls with
  | nil => rfl
  | cons x rest ih =>
    simp only [List.map_cons]
    by_cases hx : (x.id == cid) = true
    · rw [if_pos hx]
      have hx2 : (({ x with status := "active" } : Call).id == cid) = true := hx
      rw [List.find?_cons_of_pos (p := fun (c : Call) => c.id == cid) _ hx2]
      rw [List.find?_cons_of_pos (p := fun (c : Call) => c.id == cid) _ hx]
      rfl
    · rw [if_neg hx]
      rw [List.find?_cons_of_neg (p := fun (c : Call) => c.id == cid) _ hx]
      rw [List.find?_cons_of_neg (p := fun (c : Call) => c.id == cid) _ hx]
      exact ih

theorem callAnswer_notfound {calls : List Call} {user : SocketUser} {pid : String}
    {accepted : Bool} (h : getCallById calls (jsTrim pid) = none) :
    callAnswer calls user pid accepted = (.err "Звонок не найден", [], calls) := by
  unfold callAnswer
  simp only []
  rw [h]

theorem callEndHandler_notfound {calls : List Call} {user : SocketUser} {pid : String}
    (h : getCallById calls (jsTrim pid) = none) :
    callEndHandler calls user pid = (.err "Звонок не найден", [], calls) := by
  unfold callEndHandler
  simp only []
  rw [h]

theorem callAnswer_decline {calls : List Call} {user : SocketUser} {pid : String}
    {call : Call} (h : getCallById calls (jsTrim pid) = some call)
    (hm : (call.participantIds.contains user.id) = true) :
    callAnswer calls user pid false =
      (.ok,
       call.participantIds.map (fun uid =>
         ⟨"user:" ++ uid, "call_answered",
          .callAnswered call.id call.chatId false user.id user.name none none⟩),
       deleteCall calls call.id) := by
  unfold callAnswer
  simp only []
  rw [h]
  have hmem : user.id ∈ call.participantIds := (contains_eq_true_iff _ _).mp hm
  simp [hm, hmem]

theorem callAnswer_accept {calls : List Call} {user : SocketUser} {pid : String}
    {call : Call} (h : getCallById calls (jsTrim pid) = some call)
    (hm : (call.participantIds.contains user.id) = true) :
    callAnswer calls user pid true =
      (.ok,
       call.participantIds.map (fun uid =>
         ⟨"user:" ++ uid, "call_answered",
          .callAnswered call.id call.chatId true user.id user.name
            (some call.roomUrl) (some call.kind)⟩),
       calls.map (fun c => if c.id == call.id then { c with status := "active" } else c)) := by
  unfold callAnswer
  simp only []
  rw [h]
  have hmem : user.id ∈ call.participantIds := (contains_eq_true_iff _ _).mp hm
  simp [hm, hmem]

theorem callEndHandler_found {calls : List Call} {user : SocketUser} {pid : String}
    {call : Call} (h : getCallById calls (jsTrim pid) = some call)
    (hm : (call.participantIds.contains user.id) = true) :
    callEndHandler calls user pid =
      (.ok,
       call.participantIds.map (fun uid =>
         ⟨"user:" ++ uid, "call_ended",
          .callEnded call.id call.chatId "ended" (some user.id)⟩),
       deleteCall calls (jsTrim pid)) := by
  unfold callEndHandler endCall
  simp only []
  rw [h]
  have hmem : user.id ∈ call.participantIds := (contains_eq_true_iff _ _).mp hm
  simp [hm, hmem]

/-- Claim C8: declining an existing call as a participant acknowledges ok,
notifies every original participant with `call_answered{accepted:false}`, and
removes the call from the registry; afterwards both `call_answer` (with any
accepted value) and `call_end` on the same callId fail with the
call-not-found error, leaving the registry unchanged. -/
theorem C8_decline_removes_call :
    ∀ (calls : List Call) (user u2 : SocketUser) (pid : String) (call : Call)
      (accepted2 : Bool),
      getCallById calls (jsTrim pid) = some call →
      (call.participantIds.contains user.id) = true →
      ((callAnswer calls user pid false).1 = .ok ∧
       (callAnswer calls user pid false).2.1 =
         call.participantIds.map (fun uid =>
           ⟨"user:" ++ uid, "call_answered",
            .callAnswered call.id call.chatId false user.id user.name none none⟩) ∧
       getCallById (callAnswer calls user pid false).2.2 (jsTrim pid) = none ∧
       callAnswer (callAnswer calls user pid false).2.2 u2 pid accepted2 =
         (.err "Звонок не найден", [], (callAnswer calls user pid false).2.2) ∧
       callEndHandler (callAnswer calls user pid false).2.2 u2 pid =
         (.err "Звонок не найден", [], (callAnswer calls user pid false).2.2)) := by
  intro calls user u2 pid call accepted2 h hm
  have hd := callAnswer_decline h hm
  have hcid : call.id = jsTrim pid := by
    have hp := List.find?_some h
    simpa using hp
  have hnone : getCallById (callAnswer calls user pid false).2.2 (jsTrim pid) = none := by
    rw [hd]
    simp only []
    rw [← hcid]
    exact getCallById_deleteCall calls call.id
  exact ⟨by rw [hd], by rw [hd], hnone, callAnswer_notfound hnone, callEndHandler_notfound hnone⟩

/-- Claim C10: `call_answer(accepted=true)` on a call whose status is already
`active` does not fail — no ringing precondition is checked: it acknowledges
ok, re-emits `call_answered{accepted:true}` with the room address to every
participant, and the registry still holds the call, unchanged and still
`active`. -/
theorem C10_answer_active_call :
    ∀ (calls : List Call) (user : SocketUser) (pid : String) (call : Call),
      getCallById calls (jsTrim pid) = some call →
      call.status = "active" →
      (call.participantIds.contains user.id) = true →
      (callAnswer calls user pid true =
        (.ok,
         call.participantIds.map (fun uid =>
           ⟨"user:" ++ uid, "call_answered",
            .callAnswered call.id call.chatId true user.id user.name
              (some call.roomUrl) (some call.kind)⟩),
         calls.map (fun c => if c.id == call.id then { c with status := "active" } else c)) ∧
       getCallById (callAnswer calls user pid true).2.2 (jsTrim pid) = some call) := by
  intro calls user pid call h hact hm
  have ha := callAnswer_accept h hm
  have hcid : call.id = jsTrim pid := by
    have hp := List.find?_some h
    simpa using hp
  refine ⟨ha, ?_⟩
  rw [ha]
  simp only []
  unfold getCallById
  rw [← hcid]
  rw [find?_map_setActive]
  unfold getCallById at h
  rw [← hcid] at h
  rw [h]
  have hsame : { call with status := "active" } = call := by
    cases call
    simp_all
  simp only [Option.map_some']
  rw [hsame]

/-- Claim C7: a WebRTC relay command (`webrtc_offer`, `webrtc_answer`,
`webrtc_ice_candidate`) on an existing call fails with the forbidden error
exactly when the sender or the named recipient is not among the call's
participants; on success it emits exactly one event, to the recipient's user
channel, tagged with the callId and the sender's id. -/
theorem C7_webrtc_relay :
    ∀ (eventName : String) (calls : List Call) (user : SocketUser)
      (p : RelayPayload) (call : Call),
      getCallById calls (jsTrim p.callId) = some call →
      ((webrtcRelay eventName calls user p = (.err "Нет доступа к звонку", []) ↔
        ((call.participantIds.contains user.id) = false ∨
         (call.participantIds.contains (jsTrim p.toUserId)) = false)) ∧
       ((call.participantIds.contains user.id) = true →
        (call.participantIds.contains (jsTrim p.toUserId)) = true →
        webrtcRelay eventName calls user p =
          (.ok, [⟨"user:" ++ jsTrim p.toUserId, eventName,
                 .relay (jsTrim p.callId) user.id p.body⟩]))) := by
  intro eventName calls user p call h
  constructor
  · unfold webrtcRelay
    simp only []
    rw [h]
    by_cases h1 : (call.participantIds.contains user.id) = true
    · by_cases h2 : (call.participantIds.contains (jsTrim p.toUserId)) = true
      · simp [h1, h2] <;> tauto
      · simp only [Bool.not_eq_true] at h2
        simp [h1, h2] <;> tauto
    · simp only [Bool.not_eq_true] at h1
      simp [h1] <;> tauto
  · intro h1 h2
    unfold webrtcRelay
    simp only []
    rw [h]
    simp [h1, h2]
    exact ⟨(contains_eq_true_iff _ _).mp h1, (contains_eq_true_iff _ _).mp h2⟩

/-- A concrete ringing call between two users, for witnesses. -/
def callC8 : Call :=
  ⟨"call1", "c1", "audio", "ua", "Alice", ["ua", "ub"],
   "https://meet.jit.si/chat-together-call1", "ringing", "t3"⟩

/-- The same call already in the `active` state, for the C10 witness. -/
def callC10 : Call :=
  ⟨"call1", "c1", "audio", "ua", "Alice", ["ua", "ub"],
   "https://meet.jit.si/chat-together-call1", "active", "t3"⟩

/-- Concrete instantiation of `C8_decline_removes_call`. -/
theorem C8_decline_removes_call_witness :
    (callAnswer [callC8] ⟨"ua", "Alice"⟩ "call1" false).1 = .ok ∧
    (callAnswer [callC8] ⟨"ua", "Alice"⟩ "call1" false).2.1 =
      callC8.participantIds.map (fun uid =>
        ⟨"user:" ++ uid, "call_answered",
         .callAnswered callC8.id callC8.chatId false "ua" "Alice" none none⟩) ∧
    getCallById (callAnswer [callC8] ⟨"ua", "Alice"⟩ "call1" false).2.2
      (jsTrim ("call1")) = none ∧
    callAnswer (callAnswer [callC8] ⟨"ua", "Alice"⟩ "call1" false).2.2
        ⟨"ub", "Bob"⟩ "call1" true =
      (.err "Звонок не найден", [],
       (callAnswer [callC8] ⟨"ua", "Alice"⟩ "call1" false).2.2) ∧
    callEndHandler (callAnswer [callC8] ⟨"ua", "Alice"⟩ "call1" false).2.2
        ⟨"ub", "Bob"⟩ "call1" =
      (.err "Звонок не найден", [],
       (callAnswer [callC8] ⟨"ua", "Alice"⟩ "call1" false).2.2) :=
  C8_decline_removes_call [callC8] ⟨"ua", "Alice"⟩ ⟨"ub", "Bob"⟩ "call1" callC8 true
    (by decide) (by decide)

/-- Concrete instantiation of `C10_answer_active_call`. -/
theorem C10_answer_active_call_witness :
    (callAnswer [callC10] ⟨"ub", "Bob"⟩ "call1" true =
      (.ok,
       callC10.participantIds.map (fun uid =>
         ⟨"user:" ++ uid, "call_answered",
          .callAnswered callC10.id callC10.chatId true "ub" "Bob"
            (some callC10.roomUrl) (some callC10.kind)⟩),
       [callC10].map (fun c =>
         if c.id == callC10.id then { c with status := "active" } else c)) ∧
     getCallById (callAnswer [callC10] ⟨"ub", "Bob"⟩ "call1" true).2.2
       (jsTrim ("call1")) = some callC10) :=
  C10_answer_active_call [callC10] ⟨"ub", "Bob"⟩ "call1" callC10
    (by decide) (by decide) (by decide)

/-- Concrete instantiation of `C7_webrtc_relay`: both participants valid, so
the relay is not forbidden and emits exactly one tagged event to the
recipient's channel. -/
theorem C7_webrtc_relay_witness :
    (webrtcRelay "webrtc_offer" [callC8] ⟨"ua", "Alice"⟩ ⟨"call1", "ub", "sdp-offer"⟩ =
        (.err "Нет доступа к звонку", []) ↔
      ((callC8.participantIds.contains ("ua" : String)) = false ∨
       (callC8.participantIds.contains (jsTrim ("ub"))) = false)) ∧
    webrtcRelay "webrtc_offer" [callC8] ⟨"ua", "Alice"⟩ ⟨"call1", "ub", "sdp-offer"⟩ =
      (.ok, [⟨"user:" ++ jsTrim ("ub"), "webrtc_offer",
             .relay (jsTrim ("call1")) "ua" "sdp-offer"⟩]) :=
  ⟨(C7_webrtc_relay "webrtc_offer" [callC8] ⟨"ua", "Alice"⟩ ⟨"call1", "ub", "sdp-offer"⟩
      callC8 (by decide)).1,
   (C7_webrtc_relay "webrtc_offer" [callC8] ⟨"ua", "Alice"⟩ ⟨"call1", "ub", "sdp-offer"⟩
      callC8 (by decide)).2 (by decide) (by decide)⟩

/-- One-chat empty dataset for the C1 counterexample and witness. -/
def dC1 : Data := ⟨[], [⟨"c1", "direct", ["ua", "ub"], "t0", "t0"⟩], []⟩

/-- Counterexample to claim C1 as stated: through the realtime `send_message`
command, a message with an unspecified kind (`""`) and absent media is stored
with kind `file`, not `text` — `normalizeMessageKind` falls back to
`inferKindFromMime` on the missing mime type, which yields `file`, and the
store accepts `file` verbatim. -/
theorem C1_kind_default_counterexample :
    (sendMessageHandler "m1" "t2" dC1 ⟨"ua", "Alice"⟩ ⟨"c1", "", "hi", none⟩).1 =
      .okWithMessageId "m1" ∧
    ((sendMessageHandler "m1" "t2" dC1 ⟨"ua", "Alice"⟩ ⟨"c1", "", "hi", none⟩).2.messages.map
      (fun m => (m.kind, m.media))) = [("file", none)] ∧
    ¬ (((sendMessageHandler "m1" "t2" dC1 ⟨"ua", "Alice"⟩ ⟨"c1", "", "hi", none⟩).2.messages.map
      (fun m => m.kind)) = ["text"]) := by
  decide

/-- Claim C1 as amended: through the store's `addMessage`, an unspecified or
invalid kind defaults to `file` when the normalized media is present and
`text` when it is absent (and the stored message carries exactly the
normalized kind and media); through the realtime `send_message` and upload
paths, an unspecified/invalid kind is instead resolved by
`normalizeMessageKind` from the media mimeType — `image`/`video`/`audio` by
prefix, otherwise `file` — which yields `file` even when media is absent. -/
theorem C1_kind_default_amended :
    (∀ kind media, (validKinds.contains (trimLower kind)) = false →
      normalizeKind kind media = if media.isSome then "file" else "text") ∧
    (∀ kind mime, (realtimeValidKinds.contains (trimLower kind)) = false →
      normalizeMessageKind kind mime = inferKindFromMime mime) ∧
    (∀ genId ts d args m d', addMessage genId ts d args = .ok (m, d') →
      d'.messages.getLast? = some (buildMessage genId ts args) ∧
      (buildMessage genId ts args).kind = normalizeKind args.kind (normalizeMedia args.media) ∧
      (buildMessage genId ts args).media = normalizeMedia args.media) := by
  refine ⟨?_, ?_, ?_⟩
  · intro kind media h
    unfold normalizeKind
    simp only [h]
    rw [if_neg Bool.false_ne_true]
  · intro kind mime h
    unfold normalizeMessageKind
    simp only [h]
    rw [if_neg Bool.false_ne_true]
  · intro genId ts d args m d' h
    obtain ⟨_, _, _, hmsg⟩ := addMessage_ok_parts h
    refine ⟨?_, rfl, rfl⟩
    rw [hmsg]
    exact trimMessages_append_getLast _ _

/-- Concrete instantiation of `C1_kind_default_amended`: an empty kind with no
media is `text` through the store but `file` through the realtime
normalization; a stored message carries the normalized kind and media. -/
theorem C1_kind_default_amended_witness :
    normalizeKind "" none = (if (none : Option Media).isSome then "file" else "text") ∧
    normalizeMessageKind "" "" = inferKindFromMime "" ∧
    ((⟨[], [⟨"c1", "direct", ["ua", "ub"], "t0", "t2"⟩],
       [⟨"m1", "c1", "ua", "Alice", "text", "hi", none, "t2", ["ua"]⟩]⟩ : Data).messages.getLast?
      = some (buildMessage "m1" "t2" ⟨"c1", "ua", "Alice", "hi", "text", none⟩) ∧
     (buildMessage "m1" "t2" (⟨"c1", "ua", "Alice", "hi", "text", none⟩ : AddMessageArgs)).kind
      = normalizeKind "text" (normalizeMedia none) ∧
     (buildMessage "m1" "t2" (⟨"c1", "ua", "Alice", "hi", "text", none⟩ : AddMessageArgs)).media
      = normalizeMedia none) :=
  ⟨C1_kind_default_amended.1 "" none (by decide),
   C1_kind_default_amended.2.1 "" "" (by decide),
   C1_kind_default_amended.2.2 "m1" "t2" dC1 ⟨"c1", "ua", "Alice", "hi", "text", none⟩
     ⟨"m1", "c1", "ua", "Alice", "text", "hi", none, "t2", ["ua"]⟩
     ⟨[], [⟨"c1", "direct", ["ua", "ub"], "t0", "t2"⟩],
      [⟨"m1", "c1", "ua", "Alice", "text", "hi", none, "t2", ["ua"]⟩]⟩ (by rfl)⟩

/-- Two-message dataset for the C9 counterexample and witness. -/
def dC9 : Data :=
  ⟨[], [⟨"c1", "direct", ["ua", "ub"], "t0", "t0"⟩],
   [⟨"m1", "c1", "ua", "Alice", "text", "one", none, "t1", ["ua"]⟩,
    ⟨"m2", "c1", "ua", "Alice", "text", "two", none, "t2", ["ua"]⟩]⟩

/-- Counterexample to claim C9 as stated: with `limit = 0` the function does
not return zero messages — `slice(-Math.max(1, limit))` clamps the limit to 1
and returns the single most recent message. -/
theorem C9_list_messages_counterexample :
    (listMessagesForChat dC9 "c1" 0).length = 1 ∧
    ¬ ((listMessagesForChat dC9 "c1" 0).length = 0) := by
  decide

/-- Claim C9 as amended: for every limit ≥ 1, `listMessagesForChat` returns
exactly the most recent `limit` messages of the chat (all of them when fewer
exist) in ascending stored order — the length-`min count (max 1 limit)`
suffix of the chat's message sequence; limits below 1 are clamped to 1; in
particular the HTTP ListMessages endpoint, which passes limit 300, returns at
most 300 messages. -/
theorem C9_list_messages_amended :
    (∀ d chatId limit, 1 ≤ limit →
      listMessagesForChat d chatId limit =
        ((d.messages.filter (fun m => m.chatId == chatId)).drop
          ((d.messages.filter (fun m => m.chatId == chatId)).length - limit)).map
          normalizeMessage) ∧
    (∀ d chatId limit,
      (listMessagesForChat d chatId limit).length =
        min (d.messages.filter (fun m => m.chatId == chatId)).length (max 1 limit)) ∧
    (∀ d chatId, (listMessagesForChat d chatId 300).length ≤ 300) := by
  have hlen : ∀ d chatId limit,
      (listMessagesForChat d chatId limit).length =
        min (d.messages.filter (fun m => m.chatId == chatId)).length (max 1 limit) := by
    intro d chatId limit
    unfold listMessagesForChat
    simp only [List.length_map, List.length_drop]
    omega
  refine ⟨?_, hlen, ?_⟩
  · intro d chatId limit h
    unfold listMessagesForChat
    simp only []
    rw [Nat.max_eq_right h]
  · intro d chatId
    rw [hlen]
    have h300 : max 1 300 = 300 := by decide
    rw [h300]
    exact Nat.min_le_right _ _

/-- Concrete instantiation of `C9_list_messages_amended` at `limit = 1` on a
two-message chat: only the newest message comes back. -/
theorem C9_list_messages_amended_witness :
    listMessagesForChat dC9 "c1" 1 =
      ((dC9.messages.filter (fun m => m.chatId == ("c1" : String))).drop
        ((dC9.messages.filter (fun m => m.chatId == ("c1" : String))).length - 1)).map
        normalizeMessage ∧
    (listMessagesForChat dC9 "c1" 1).length =
      min (dC9.messages.filter (fun m => m.chatId == ("c1" : String))).length (max 1 1) ∧
    (listMessagesForChat dC9 "c1" 300).length ≤ 300 :=
  ⟨C9_list_messages_amended.1 dC9 "c1" 1 (by decide),
   C9_list_messages_amended.2.1 dC9 "c1" 1,
   C9_list_messages_amended.2.2 dC9 "c1"⟩

end ChatApp
